import Mathlib

/-!
Verification of the metadata-decoding core of `genparameters.py`
(ComfyUI video metadata analyzer).

The embedding models:

* Python/JSON values as the inductive type `Json` (JSON numbers are
  restricted to integers in this model; no claim depends on float values).
* `json.loads` as `parseJson`, a strict recursive-descent parser following
  the JSON grammar accepted by Python's `json` module (whitespace set,
  leading-zero rule, string escape rules with surrogate pairing, rejection
  of raw control characters, duplicate object keys resolved last-wins with
  first-insertion order, trailing data rejected).  Code points that Lean's
  `Char` cannot represent (lone surrogates) make the parse fail; they do
  not occur in any input considered here.
* `str.encode().decode('unicode_escape')` as `unicodeUnescape`
  (UTF-8 encode, then byte-wise escape decoding with Latin-1 fallback).
* `str.strip('"')` as `stripQuotes` (removes ALL leading and trailing
  quote characters).
* `extract_nodes` as a fuelled recursion `extractNodesGo`; the fuel
  `sizeB` strictly dominates the recursion depth for every case the
  theorems below touch, so the bounded recursion agrees with the
  unbounded Python recursion there.
* `analyze_workflow` in the `Except PyErr` monad, with Python's dynamic
  attribute/type errors (`.get` on a non-dict, `.lower()` on a non-str,
  `in` on a non-container, subscripting a non-dict with a string key)
  modelled explicitly, since the claims discuss exactly those behaviours.
* the presentation-time `sorted(set(...))` of `print_results` as
  `sortDedup` (string elements; the analyzed fields are strings in every
  case the claims consider).
-/

/-- JSON/Python values produced by `json.loads` (numbers restricted to
integers in this model). Objects are insertion-ordered association lists,
mirroring Python dicts. -/
inductive Json where
  | null : Json
  | bool (b : Bool) : Json
  | num (n : Int) : Json
  | str (s : String) : Json
  | arr (xs : List Json) : Json
  | obj (kvs : List (String × Json)) : Json

/-- Dict lookup (first match; the parser keeps keys unique). -/
def alistLookup : List (String × Json) → String → Option Json
  | [], _ => none
  | (k, v) :: rest, key => if k == key then some v else alistLookup rest key

/-- Python `key in dict`. -/
def containsKey (kvs : List (String × Json)) (k : String) : Bool :=
  (alistLookup kvs k).isSome

/-- Dict insertion with last-wins update at the first occurrence,
mirroring `d[k] = v` on a Python dict. -/
def objUpsert (kvs : List (String × Json)) (k : String) (v : Json) :
    List (String × Json) :=
  match kvs with
  | [] => [(k, v)]
  | (k0, v0) :: rest =>
      if k0 == k then (k0, v) :: rest else (k0, v0) :: objUpsert rest k v

/-- JSON whitespace accepted by `json.loads`. -/
def isJsonWs (c : Char) : Bool :=
  c == ' ' || c == '\t' || c == '\n' || c == '\r'

/-- Skip JSON whitespace. -/
def skipWs : List Char → List Char
  | [] => []
  | c :: rest => if isJsonWs c then skipWs rest else c :: rest

/-- Hexadecimal digit value. -/
def hexVal (c : Char) : Option Nat :=
  if '0' ≤ c ∧ c ≤ '9' then some (c.toNat - '0'.toNat)
  else if 'a' ≤ c ∧ c ≤ 'f' then some (c.toNat - 'a'.toNat + 10)
  else if 'A' ≤ c ∧ c ≤ 'F' then some (c.toNat - 'A'.toNat + 10)
  else none

/-- Decimal digit test. -/
def isDigitCh (c : Char) : Bool := '0' ≤ c && c ≤ '9'

/-- Leading run of decimal digits. -/
def takeDigits : List Char → List Char × List Char
  | [] => ([], [])
  | c :: rest =>
      if isDigitCh c then
        let (ds, r) := takeDigits rest
        (c :: ds, r)
      else ([], c :: rest)

/-- Digits to a natural number. -/
def digitsToNat (ds : List Char) : Nat :=
  ds.foldl (fun acc c => acc * 10 + (c.toNat - '0'.toNat)) 0

/-- Combine a UTF-16 surrogate pair into a code point. -/
def combineSurrogates (hi lo : Nat) : Nat :=
  0x10000 + (hi - 0xD800) * 0x400 + (lo - 0xDC00)

/-- Can this code point inhabit a Lean `Char`? -/
def validCodePoint (n : Nat) : Bool :=
  decide (n < 0xD800 ∨ (0xE000 ≤ n ∧ n < 0x110000))

/-- Body of a JSON string literal (after the opening quote), with the
escape rules of `json.loads`: `\" \\ \/ \b \f \n \r \t \uXXXX`, raw
control characters rejected, surrogate pairs combined.  Returns the
decoded characters and the input remaining after the closing quote. -/
def parseStrBody : List Char → Option (List Char × List Char)
  | [] => none
  | '"' :: rest => some ([], rest)
  | '\\' :: esc => match esc with
    | [] => none
    | '"' :: rest => (parseStrBody rest).map (fun p => ('"' :: p.1, p.2))
    | '\\' :: rest => (parseStrBody rest).map (fun p => ('\\' :: p.1, p.2))
    | '/' :: rest => (parseStrBody rest).map (fun p => ('/' :: p.1, p.2))
    | 'b' :: rest => (parseStrBody rest).map (fun p => (Char.ofNat 8 :: p.1, p.2))
    | 'f' :: rest => (parseStrBody rest).map (fun p => (Char.ofNat 12 :: p.1, p.2))
    | 'n' :: rest => (parseStrBody rest).map (fun p => ('\n' :: p.1, p.2))
    | 'r' :: rest => (parseStrBody rest).map (fun p => (Char.ofNat 13 :: p.1, p.2))
    | 't' :: rest => (parseStrBody rest).map (fun p => ('\t' :: p.1, p.2))
    | 'u' :: h1 :: h2 :: h3 :: h4 :: rest =>
        match hexVal h1, hexVal h2, hexVal h3, hexVal h4 with
        | some a, some b, some c, some d =>
            let n := ((a * 16 + b) * 16 + c) * 16 + d
            if 0xD800 ≤ n ∧ n ≤ 0xDBFF then
              match rest with
              | '\\' :: 'u' :: g1 :: g2 :: g3 :: g4 :: rest2 =>
                  match hexVal g1, hexVal g2, hexVal g3, hexVal g4 with
                  | some a2, some b2, some c2, some d2 =>
                      let m := ((a2 * 16 + b2) * 16 + c2) * 16 + d2
                      if 0xDC00 ≤ m ∧ m ≤ 0xDFFF then
                        (parseStrBody rest2).map
                          (fun p => (Char.ofNat (combineSurrogates n m) :: p.1, p.2))
                      else none
                  | _, _, _, _ => none
              | _ => none
            else if validCodePoint n then
              (parseStrBody rest).map (fun p => (Char.ofNat n :: p.1, p.2))
            else none
        | _, _, _, _ => none
    | _ => none
  | c :: rest =>
      if c.toNat < 0x20 then none
      else (parseStrBody rest).map (fun p => (c :: p.1, p.2))

/-- JSON integer literal after an optional minus sign has been split off:
`0` or a nonzero digit followed by digits (the `(0|[1-9][0-9]*)` rule). -/
def parseIntDigits : List Char → Option (Nat × List Char)
  | [] => none
  | '0' :: rest => some (0, rest)
  | c :: rest =>
      if isDigitCh c then
        let (ds, r) := takeDigits rest
        some (digitsToNat (c :: ds), r)
      else none

mutual

/-- One JSON value (fuelled recursive descent; leading whitespace already
skipped). -/
def parseV : Nat → List Char → Option (Json × List Char)
  | 0, _ => none
  | _ + 1, [] => none
  | fuel + 1, c :: rest =>
      if c == '"' then
        (parseStrBody rest).map (fun p => (Json.str ⟨p.1⟩, p.2))
      else if c == '{' then
        let r := skipWs rest
        match r with
        | '}' :: r2 => some (Json.obj [], r2)
        | _ => parseMembers fuel r []
      else if c == '[' then
        let r := skipWs rest
        match r with
        | ']' :: r2 => some (Json.arr [], r2)
        | _ => parseItems fuel r []
      else if c == 't' then
        match rest with
        | 'r' :: 'u' :: 'e' :: r => some (Json.bool true, r)
        | _ => none
      else if c == 'f' then
        match rest with
        | 'a' :: 'l' :: 's' :: 'e' :: r => some (Json.bool false, r)
        | _ => none
      else if c == 'n' then
        match rest with
        | 'u' :: 'l' :: 'l' :: r => some (Json.null, r)
        | _ => none
      else if c == '-' then
        (parseIntDigits rest).map (fun p => (Json.num (-(p.1 : Int)), p.2))
      else
        (parseIntDigits (c :: rest)).map (fun p => (Json.num (p.1 : Int), p.2))

/-- Object members: expects a key string at the head (whitespace already
skipped), then `: value`, then `,` or the closing brace. -/
def parseMembers (fuel : Nat) (cs : List Char) (acc : List (String × Json)) :
    Option (Json × List Char) :=
  match fuel with
  | 0 => none
  | fuel + 1 =>
    match cs with
    | '"' :: rest =>
        match parseStrBody rest with
        | none => none
        | some (kcs, afterKey) =>
            match skipWs afterKey with
            | ':' :: afterColon =>
                match parseV fuel (skipWs afterColon) with
                | none => none
                | some (v, afterVal) =>
                    let acc2 := objUpsert acc ⟨kcs⟩ v
                    match skipWs afterVal with
                    | ',' :: afterComma => parseMembers fuel (skipWs afterComma) acc2
                    | '}' :: r => some (Json.obj acc2, r)
                    | _ => none
            | _ => none
    | _ => none

/-- Array items: expects a value at the head (whitespace already skipped),
then `,` or the closing bracket. -/
def parseItems (fuel : Nat) (cs : List Char) (acc : List Json) :
    Option (Json × List Char) :=
  match fuel with
  | 0 => none
  | fuel + 1 =>
    match parseV fuel cs with
    | none => none
    | some (v, afterVal) =>
        match skipWs afterVal with
        | ',' :: afterComma => parseItems fuel (skipWs afterComma) (acc ++ [v])
        | ']' :: r => some (Json.arr (acc ++ [v]), r)
        | _ => none

end

/-- Model of Python `json.loads` on the JSON fragment described above:
parse one value and require only whitespace to remain.  The fuel
`2 * length + 8` strictly dominates the recursion depth (every recursive
call consumes at least one input character or one grammar production). -/
def parseJson (s : String) : Option Json :=
  match parseV (2 * s.data.length + 8) (skipWs s.data) with
  | some (v, rest) => if (skipWs rest).isEmpty then some v else none
  | none => none

/-- UTF-8 encoding of one character (model of `str.encode()`). -/
def utf8Char (c : Char) : List Nat :=
  let n := c.toNat
  if n < 0x80 then [n]
  else if n < 0x800 then [0xC0 + n / 64, 0x80 + n % 64]
  else if n < 0x10000 then
    [0xE0 + n / 4096, 0x80 + (n / 64) % 64, 0x80 + n % 64]
  else
    [0xF0 + n / 262144, 0x80 + (n / 4096) % 64, 0x80 + (n / 64) % 64,
     0x80 + n % 64]

/-- UTF-8 bytes of a string. -/
def strUtf8 (s : String) : List Nat := (s.data.map utf8Char).flatten

/-- Octal digit test on a byte. -/
def isOctalByte (b : Nat) : Bool := 48 ≤ b && b ≤ 55

/-- Hex digit value of a byte. -/
def hexValByte (b : Nat) : Option Nat := hexVal (Char.ofNat b)

/-- Octal escape: starting from one octal digit byte `b`, consume up to
two further octal digits, returning the code point and the remainder. -/
def octRun (b : Nat) (rest : List Nat) : Nat × List Nat :=
  match rest with
  | b2 :: rest2 =>
      if isOctalByte b2 then
        match rest2 with
        | b3 :: rest3 =>
            if isOctalByte b3 then
              (((b - 48) * 8 + (b2 - 48)) * 8 + (b3 - 48), rest3)
            else ((b - 48) * 8 + (b2 - 48), rest2)
        | [] => ((b - 48) * 8 + (b2 - 48), [])
      else (b - 48, rest)
  | [] => (b - 48, [])

/-- Model of `bytes.decode('unicode_escape')`: backslash escape sequences
are interpreted (`\\ \' \" \a \b \f \n \r \t \v`, octal, `\xHH`, `\uXXXX`,
`\UXXXXXXXX`, backslash-newline line continuation, unknown escapes kept
verbatim), all other bytes are read as Latin-1.  Truncated escapes and
code points outside `Char` make the decode fail, as CPython raises there
(lone surrogates from `\u` are unrepresentable in `Char` and also fail;
they never arise below). -/
def unescGo : Nat → List Nat → Option (List Char)
  | 0, _ => none
  | _ + 1, [] => some []
  | fuel + 1, 92 :: tail =>
    match tail with
    | [] => none
    | 10 :: rest => unescGo fuel rest
    | 92 :: rest => (unescGo fuel rest).map (fun cs => '\\' :: cs)
    | 39 :: rest => (unescGo fuel rest).map (fun cs => Char.ofNat 39 :: cs)
    | 34 :: rest => (unescGo fuel rest).map (fun cs => '"' :: cs)
    | 97 :: rest => (unescGo fuel rest).map (fun cs => Char.ofNat 7 :: cs)
    | 98 :: rest => (unescGo fuel rest).map (fun cs => Char.ofNat 8 :: cs)
    | 102 :: rest => (unescGo fuel rest).map (fun cs => Char.ofNat 12 :: cs)
    | 110 :: rest => (unescGo fuel rest).map (fun cs => '\n' :: cs)
    | 114 :: rest => (unescGo fuel rest).map (fun cs => Char.ofNat 13 :: cs)
    | 116 :: rest => (unescGo fuel rest).map (fun cs => '\t' :: cs)
    | 118 :: rest => (unescGo fuel rest).map (fun cs => Char.ofNat 11 :: cs)
    | 120 :: rest =>
        match rest with
        | b1 :: b2 :: rest2 =>
            match hexValByte b1, hexValByte b2 with
            | some h1, some h2 =>
                (unescGo fuel rest2).map (fun cs => Char.ofNat (h1 * 16 + h2) :: cs)
            | _, _ => none
        | _ => none
    | 117 :: rest =>
        match rest with
        | b1 :: b2 :: b3 :: b4 :: rest2 =>
            match hexValByte b1, hexValByte b2, hexValByte b3, hexValByte b4 with
            | some h1, some h2, some h3, some h4 =>
                let n := ((h1 * 16 + h2) * 16 + h3) * 16 + h4
                if validCodePoint n then
                  (unescGo fuel rest2).map (fun cs => Char.ofNat n :: cs)
                else none
            | _, _, _, _ => none
        | _ => none
    | 85 :: rest =>
        match rest with
        | b1 :: b2 :: b3 :: b4 :: b5 :: b6 :: b7 :: b8 :: rest2 =>
            match hexValByte b1, hexValByte b2, hexValByte b3, hexValByte b4,
                  hexValByte b5, hexValByte b6, hexValByte b7, hexValByte b8 with
            | some h1, some h2, some h3, some h4,
              some h5, some h6, some h7, some h8 =>
                let n := ((((((h1 * 16 + h2) * 16 + h3) * 16 + h4) * 16 + h5)
                            * 16 + h6) * 16 + h7) * 16 + h8
                if validCodePoint n then
                  (unescGo fuel rest2).map (fun cs => Char.ofNat n :: cs)
                else none
            | _, _, _, _, _, _, _, _ => none
        | _ => none
    | b :: rest =>
        if isOctalByte b then
          let p := octRun b rest
          (unescGo fuel p.2).map (fun cs => Char.ofNat p.1 :: cs)
        else
          (unescGo fuel rest).map (fun cs => '\\' :: Char.ofNat b :: cs)
  | fuel + 1, b :: rest => (unescGo fuel rest).map (fun cs => Char.ofNat b :: cs)

/-- Escape-decode a byte list: every step consumes at least one byte, so
fuel `length + 1` always suffices. -/
def unescBytes (bs : List Nat) : Option (List Char) :=
  unescGo (bs.length + 1) bs

/-- Model of `data.encode().decode('unicode_escape')`. -/
def unicodeUnescape (s : String) : Option String :=
  (unescBytes (strUtf8 s)).map (fun cs => ⟨cs⟩)

/-- Model of `str.strip('"')`: remove ALL leading and trailing quote
characters. -/
def stripQuotes (s : String) : String :=
  ⟨((s.data.dropWhile (fun c => c == '"')).reverse.dropWhile
      (fun c => c == '"')).reverse⟩

mutual

/-- Structural size of a `Json` value; used as recursion fuel for
`extract_nodes` (it strictly dominates the recursion depth). -/
def sizeB : Json → Nat
  | .null => 1
  | .bool _ => 1
  | .num _ => 1
  | .str s => s.length + 2
  | .arr xs => sizeArrB xs + 1
  | .obj kvs => sizeObjB kvs + 1

/-- Size of an array's elements. -/
def sizeArrB : List Json → Nat
  | [] => 0
  | x :: xs => sizeB x + sizeArrB xs

/-- Size of an object's values. -/
def sizeObjB : List (String × Json) → Nat
  | [] => 0
  | kv :: kvs => sizeB kv.2 + sizeObjB kvs

end

/-- Fuelled body of `extract_nodes`:

* a dict containing a `prompt` key recurses into the value under it,
  any other dict is returned as-is;
* a string is parsed as JSON and recursed into; if parsing fails, the
  string is escape-decoded and stripped of surrounding quotes and the
  parse is retried; if that also fails the result is `none`;
* everything else yields `none`. -/
def extractNodesGo : Nat → Json → Option Json
  | 0, _ => none
  | fuel + 1, .obj kvs =>
      match alistLookup kvs "prompt" with
      | some v => extractNodesGo fuel v
      | none => some (.obj kvs)
  | fuel + 1, .str s =>
      match parseJson s with
      | some v => extractNodesGo fuel v
      | none =>
          match unicodeUnescape s with
          | some u =>
              match parseJson (stripQuotes u) with
              | some v => extractNodesGo fuel v
              | none => none
          | none => none
  | _ + 1, _ => none

/-- Model of `extract_nodes` from `genparameters.py`. -/
def extract_nodes (data : Json) : Option Json :=
  extractNodesGo (sizeB data) data

/-- Python truthiness of a JSON value. -/
def truthy : Json → Bool
  | .null => false
  | .bool b => b
  | .num n => n != 0
  | .str s => !s.isEmpty
  | .arr xs => !xs.isEmpty
  | .obj kvs => !kvs.isEmpty

/-- Python `==` against a string constant (a JSON value of another type
never equals a `str`). -/
def pyEqStr (v : Json) (s : String) : Bool :=
  match v with
  | .str t => t == s
  | _ => false

/-- Model of `str.lower()` (ASCII case folding; every string the claims
touch is ASCII). -/
def strLower (s : String) : String := ⟨s.data.map Char.toLower⟩

/-- `listStartsWith hay pat`: `pat` is an initial segment of `hay`. -/
def listStartsWith : List Char → List Char → Bool
  | _, [] => true
  | [], _ :: _ => false
  | a :: as, b :: bs => a == b && listStartsWith as bs

/-- `listHasSub hay pat`: `pat` occurs contiguously in `hay`. -/
def listHasSub : List Char → List Char → Bool
  | [], pat => pat.isEmpty
  | a :: tl, pat => listStartsWith (a :: tl) pat || listHasSub tl pat

/-- Python `pat in hay` on strings (substring containment). -/
def strContainsSub (hay pat : String) : Bool := listHasSub hay.data pat.data

/-- Dynamic errors the analyzer can raise, mirroring Python exceptions. -/
inductive PyErr where
  | attrError : PyErr
  | typeError : PyErr
  | keyError : PyErr
  | valueError : PyErr

/-- Python `v.get(k, dflt)`: dict lookup with default; `AttributeError`
on any non-dict receiver. -/
def pyGetDefault (v : Json) (k : String) (dflt : Json) : Except PyErr Json :=
  match v with
  | .obj kvs => .ok ((alistLookup kvs k).getD dflt)
  | _ => .error PyErr.attrError

/-- Python `v.lower()`: only strings have it among JSON values. -/
def pyLower : Json → Except PyErr String
  | .str s => .ok (strLower s)
  | _ => .error PyErr.attrError

/-- Python `k in v` for a string key `k`: key membership for dicts,
element equality for lists, substring test for strings, `TypeError`
otherwise. -/
def pyContains (v : Json) (k : String) : Except PyErr Bool :=
  match v with
  | .obj kvs => .ok (containsKey kvs k)
  | .arr xs => .ok (xs.any (fun e => pyEqStr e k))
  | .str s => .ok (strContainsSub s k)
  | _ => .error PyErr.typeError

/-- Python `v[k]` for a string key `k`: dict subscription; `TypeError`
on any other receiver (list and string indices must be integers). -/
def pySubscript (v : Json) (k : String) : Except PyErr Json :=
  match v with
  | .obj kvs =>
      match alistLookup kvs k with
      | some x => .ok x
      | none => .error PyErr.keyError
  | _ => .error PyErr.typeError

/-- Two lowercase hex digits of a byte value. -/
def toHex2 (n : Nat) : String :=
  let d := fun m => if m < 10 then Char.ofNat (48 + m) else Char.ofNat (87 + m)
  ⟨[d (n / 16 % 16), d (n % 16)]⟩

/-- The apostrophe character. -/
def aposChar : Char := Char.ofNat 39

/-- Escape one character inside a Python string repr that is delimited
by `q`. -/
def reprEscChar (q c : Char) : List Char :=
  if c == '\\' then ['\\', '\\']
  else if c == q then ['\\', q]
  else if c == '\n' then ['\\', 'n']
  else if c == Char.ofNat 13 then ['\\', 'r']
  else if c == '\t' then ['\\', 't']
  else if c.toNat < 32 || c.toNat == 127 then
    '\\' :: 'x' :: (toHex2 c.toNat).data
  else [c]

/-- Model of Python `repr` on a string: apostrophe-quoted unless the
string contains an apostrophe and no double quote. -/
def quoteRepr (s : String) : String :=
  let q := if s.data.contains aposChar && !(s.data.contains '"')
           then '"' else aposChar
  ⟨q :: (s.data.map (reprEscChar q)).flatten ++ [q]⟩

mutual

/-- Model of Python `str()` on a JSON value (as used by the f-string in
the analyzer): strings unchanged, everything else via `repr`-style
rendering. -/
def pyStr : Json → String
  | .str s => s
  | v => pyRepr v

/-- Model of Python `repr` on a JSON value. -/
def pyRepr : Json → String
  | .null => "None"
  | .bool true => "True"
  | .bool false => "False"
  | .num n => toString n
  | .str s => quoteRepr s
  | .arr xs => "[" ++ pyReprArr xs ++ "]"
  | .obj kvs => "\x7b" ++ pyReprObj kvs ++ "\x7d"

/-- Comma-separated reprs of list elements. -/
def pyReprArr : List Json → String
  | [] => ""
  | [x] => pyRepr x
  | x :: xs => pyRepr x ++ ", " ++ pyReprArr xs

/-- Comma-separated `key: value` reprs of dict entries. -/
def pyReprObj : List (String × Json) → String
  | [] => ""
  | [kv] => quoteRepr kv.1 ++ ": " ++ pyRepr kv.2
  | kv :: kvs => quoteRepr kv.1 ++ ": " ++ pyRepr kv.2 ++ ", " ++ pyReprObj kvs

end

/-- The four result lists accumulated by `analyze_workflow`; also used
for the per-node deltas. -/
structure AnalysisResult where
  positives : List Json
  negatives : List Json
  loras : List String
  models : List Json

/-- Prompt classification step of the loop body (`class_type ==
"CLIPTextEncode"` guard, truthy `text`, substring test on the lowered
title and lowered node id).  Returns (positives delta, negatives delta). -/
def promptsDelta (class_type inputs : Json) (title node_id : String) :
    Except PyErr (List Json × List Json) :=
  if pyEqStr class_type "CLIPTextEncode" then
    match pyGetDefault inputs "text" (.str "") with
    | .error e => .error e
    | .ok text =>
        if truthy text then
          if strContainsSub title "negative"
              || strContainsSub (strLower node_id) "negative" then
            .ok ([], [text])
          else
            .ok ([text], [])
        else .ok ([], [])
  else .ok ([], [])

/-- LoRA extraction step of the loop body: membership test on
`lora_name`, then the truthiness chain
`inputs.get("strength_model") or inputs.get("strength") or "1.0"`,
then the formatted entry. -/
def lorasDelta (inputs : Json) : Except PyErr (List String) :=
  match pyContains inputs "lora_name" with
  | .error e => .error e
  | .ok false => .ok []
  | .ok true =>
      match pyGetDefault inputs "strength_model" .null with
      | .error e => .error e
      | .ok sm =>
          match pyGetDefault inputs "strength" .null with
          | .error e => .error e
          | .ok st =>
              let strength := if truthy sm then sm
                              else if truthy st then st
                              else .str "1.0"
              match pySubscript inputs "lora_name" with
              | .error e => .error e
              | .ok nm =>
                  .ok [pyStr nm ++ " (Weight: " ++ pyStr strength ++ ")"]

/-- Model extraction step of the loop body: `unet_name` first, else
`ckpt_name`, else nothing. -/
def modelsDelta (inputs : Json) : Except PyErr (List Json) :=
  match pyContains inputs "unet_name" with
  | .error e => .error e
  | .ok true =>
      match pySubscript inputs "unet_name" with
      | .error e => .error e
      | .ok v => .ok [v]
  | .ok false =>
      match pyContains inputs "ckpt_name" with
      | .error e => .error e
      | .ok true =>
          match pySubscript inputs "ckpt_name" with
          | .error e => .error e
          | .ok v => .ok [v]
      | .ok false => .ok []

/-- One iteration of the `for node_id, node in nodes.items()` loop:
non-dict entries are skipped, otherwise `class_type`, `inputs` and the
lowered `_meta.title` are read (with Python's dynamic errors) and the
three extraction steps run. -/
def processNode (node_id : String) (node : Json) : Except PyErr AnalysisResult :=
  match node with
  | .obj kvs =>
      let class_type := (alistLookup kvs "class_type").getD (.str "")
      let inputs := (alistLookup kvs "inputs").getD (.obj [])
      let metaV := (alistLookup kvs "_meta").getD (.obj [])
      match pyGetDefault metaV "title" (.str "") with
      | .error e => .error e
      | .ok titleV =>
          match pyLower titleV with
          | .error e => .error e
          | .ok title =>
              match promptsDelta class_type inputs title node_id with
              | .error e => .error e
              | .ok pd =>
                  match lorasDelta inputs with
                  | .error e => .error e
                  | .ok ld =>
                      match modelsDelta inputs with
                      | .error e => .error e
                      | .ok md => .ok ⟨pd.1, pd.2, ld, md⟩
  | _ => .ok ⟨[], [], [], []⟩

/-- The analyzer loop over the node entries, accumulating the four
lists in encounter order and propagating the first error. -/
def analyzeFold (entries : List (String × Json)) (acc : AnalysisResult) :
    Except PyErr AnalysisResult :=
  match entries with
  | [] => .ok acc
  | kv :: rest =>
      match processNode kv.1 kv.2 with
      | .error e => .error e
      | .ok d =>
          analyzeFold rest
            ⟨acc.positives ++ d.positives, acc.negatives ++ d.negatives,
             acc.loras ++ d.loras, acc.models ++ d.models⟩

/-- Model of `analyze_workflow` from `genparameters.py`: recover the
node structure, raise `ValueError` when the result is falsy (`None` or
an empty dict), then walk the entries.  A truthy non-dict result would
fail on `.items()` with `AttributeError`; `extract_nodes` never produces
one. -/
def analyze_workflow (raw : Json) : Except PyErr AnalysisResult :=
  match extract_nodes raw with
  | none => .error PyErr.valueError
  | some nodes =>
      if truthy nodes then
        match nodes with
        | .obj kvs => analyzeFold kvs ⟨[], [], [], []⟩
        | _ => .error PyErr.attrError
      else .error PyErr.valueError

/-- Code-point lexicographic comparison of character lists (the order
Python uses to compare strings). -/
def charListLt : List Char → List Char → Bool
  | [], [] => false
  | [], _ :: _ => true
  | _ :: _, [] => false
  | a :: as, b :: bs =>
      if a.toNat < b.toNat then true
      else if b.toNat < a.toNat then false
      else charListLt as bs

/-- Python `<` on strings: code-point lexicographic. -/
def strLt (a b : String) : Bool := charListLt a.data b.data

/-- Insert a string into a strictly sorted list, keeping it strictly
sorted (used to model `sorted(set(...))`). -/
def insertSorted (x : String) : List String → List String
  | [] => [x]
  | y :: ys =>
      if strLt x y then x :: y :: ys
      else if x == y then y :: ys
      else y :: insertSorted x ys

/-- Model of Python `sorted(set(l))` for a list of strings: the distinct
elements in strictly increasing lexicographic order. -/
def sortDedup : List String → List String
  | [] => []
  | x :: xs => insertSorted x (sortDedup xs)

/-- String payloads of a list of JSON values, when all are strings. -/
def allStringsOf : List Json → Option (List String)
  | [] => some []
  | .str s :: rest => (allStringsOf rest).map (fun ss => s :: ss)
  | _ => none

/-- Positive prompts as printed by `print_results`: the accumulated list
in node-encounter order, unchanged. -/
def printedPositives (rs : AnalysisResult) : List Json := rs.positives

/-- Negative prompts as printed by `print_results`: the accumulated list
in node-encounter order, unchanged. -/
def printedNegatives (rs : AnalysisResult) : List Json := rs.negatives

/-- LoRA entries as printed by `print_results`: `sorted(set(...))`. -/
def printedLoras (rs : AnalysisResult) : List String := sortDedup rs.loras

/-- Model names as printed by `print_results`: `sorted(set(...))` (the
string-elements case; every model entry the claims consider is a
string). -/
def printedModels (rs : AnalysisResult) : Option (List String) :=
  (allStringsOf rs.models).map sortDedup

/-- Lowered title hint of a node record, as computed by the source line
`node.get("_meta", \x7b\x7d).get("title", "").lower()` (total function;
the fallback branches only matter outside the wellformed cases). -/
def titleLowerOf (kvs : List (String × Json)) : String :=
  match alistLookup kvs "_meta" with
  | some (.obj m) =>
      match alistLookup m "title" with
      | some (.str t) => strLower t
      | _ => ""
  | _ => ""

/-- Negative-classification test: the lowered title or the lowered node
identifier contains the substring `negative`. -/
def isNegativeNode (node_id : String) (titleLower : String) : Bool :=
  strContainsSub titleLower "negative"
    || strContainsSub (strLower node_id) "negative"

/-- The `inputs` record of a node, when the node is a record and its
`inputs` field (defaulted to an empty record) is a record. -/
def inputsKvsOf (kvs : List (String × Json)) : Option (List (String × Json)) :=
  match (alistLookup kvs "inputs").getD (.obj []) with
  | .obj ik => some ik
  | _ => none

/-- Per-node positive-prompt extractor: the `text` value of a
`CLIPTextEncode` node with truthy `text` that is not classified
negative. -/
def posOf (kv : String × Json) : Option Json :=
  match kv.2 with
  | .obj kvs =>
      match inputsKvsOf kvs with
      | some ik =>
          let ct := (alistLookup kvs "class_type").getD (.str "")
          let text := (alistLookup ik "text").getD (.str "")
          if pyEqStr ct "CLIPTextEncode" && truthy text
              && !isNegativeNode kv.1 (titleLowerOf kvs) then
            some text
          else none
      | none => none
  | _ => none

/-- Per-node negative-prompt extractor. -/
def negOf (kv : String × Json) : Option Json :=
  match kv.2 with
  | .obj kvs =>
      match inputsKvsOf kvs with
      | some ik =>
          let ct := (alistLookup kvs "class_type").getD (.str "")
          let text := (alistLookup ik "text").getD (.str "")
          if pyEqStr ct "CLIPTextEncode" && truthy text
              && isNegativeNode kv.1 (titleLowerOf kvs) then
            some text
          else none
      | none => none
  | _ => none

/-- Strength resolution of the LoRA entry: first truthy value among
`strength_model` and `strength`, else the literal `"1.0"`. -/
def strengthOf (ik : List (String × Json)) : Json :=
  let sm := (alistLookup ik "strength_model").getD .null
  let st := (alistLookup ik "strength").getD .null
  if truthy sm then sm else if truthy st then st else .str "1.0"

/-- Per-node LoRA extractor: one formatted entry when `inputs` has a
`lora_name` key. -/
def loraOf (kv : String × Json) : Option String :=
  match kv.2 with
  | .obj kvs =>
      match inputsKvsOf kvs with
      | some ik =>
          if containsKey ik "lora_name" then
            some (pyStr ((alistLookup ik "lora_name").getD .null)
              ++ " (Weight: " ++ pyStr (strengthOf ik) ++ ")")
          else none
      | none => none
  | _ => none

/-- Per-node model extractor: the `unet_name` value when that key is
present, else the `ckpt_name` value when present, else nothing. -/
def modelOf (kv : String × Json) : Option Json :=
  match kv.2 with
  | .obj kvs =>
      match inputsKvsOf kvs with
      | some ik =>
          if containsKey ik "unet_name" then alistLookup ik "unet_name"
          else if containsKey ik "ckpt_name" then alistLookup ik "ckpt_name"
          else none
      | none => none
  | _ => none

/-- The four per-node deltas produced by one loop iteration. -/
def deltaOf (kv : String × Json) : AnalysisResult :=
  ⟨(posOf kv).toList, (negOf kv).toList, (loraOf kv).toList, (modelOf kv).toList⟩

/-- The `_meta` field (if present) is a record whose `title` field (if
present) is a string. -/
def wfMeta (kvs : List (String × Json)) : Bool :=
  match alistLookup kvs "_meta" with
  | none => true
  | some (.obj m) =>
      match alistLookup m "title" with
      | none => true
      | some (.str _) => true
      | some _ => false
  | some _ => false

/-- The `inputs` field (if present) is a record. -/
def wfInputs (kvs : List (String × Json)) : Bool :=
  match alistLookup kvs "inputs" with
  | none => true
  | some (.obj _) => true
  | some _ => false

/-- Wellformed node entry: either not a record (skipped by the loop) or
a record with record-shaped `_meta`/`inputs`; on these nodes the loop
body raises no exception. -/
def wfNode : Json → Bool
  | .obj kvs => wfMeta kvs && wfInputs kvs
  | _ => true

/-- Every entry of the graph is wellformed. -/
def wfGraph (g : List (String × Json)) : Bool := g.all (fun kv => wfNode kv.2)

/-- A node mapping wrapped `k` levels deep under a `prompt` key. -/
def promptWrap : Nat → Json → Json
  | 0, v => v
  | k + 1, v => .obj [("prompt", promptWrap k v)]

/-- Record test. -/
def jsonIsObj : Json → Bool
  | .obj _ => true
  | _ => false

/-- String test. -/
def jsonIsStr : Json → Bool
  | .str _ => true
  | _ => false

/-- Drop one leading quote character, if present. -/
def dropOneQuote : List Char → List Char
  | '"' :: rest => rest
  | cs => cs

/-- Quote-stripping as the claim words it: remove exactly one layer of
surrounding quote characters (at most one from each end). -/
def stripOneQuoteLayer (s : String) : String :=
  ⟨(dropOneQuote ((dropOneQuote s.data).reverse)).reverse⟩

/-- The recovery function as the claim describes it: identical to
`extractNodesGo` except that the fallback strips exactly one layer of
surrounding quotes instead of all of them. -/
def extractOneLayerGo : Nat → Json → Option Json
  | 0, _ => none
  | fuel + 1, .obj kvs =>
      match alistLookup kvs "prompt" with
      | some v => extractOneLayerGo fuel v
      | none => some (.obj kvs)
  | fuel + 1, .str s =>
      match parseJson s with
      | some v => extractOneLayerGo fuel v
      | none =>
          match unicodeUnescape s with
          | some u =>
              match parseJson (stripOneQuoteLayer u) with
              | some v => extractOneLayerGo fuel v
              | none => none
          | none => none
  | _ + 1, _ => none

/-- Claim-described recovery (one-layer stripping), for comparison with
the implemented `extract_nodes`. -/
def recoverOneLayer (data : Json) : Option Json :=
  extractOneLayerGo (sizeB data) data

/-- Strength resolution as the claim words it: the `strength_model`
value when that key is present, else the `strength` value when present,
else the literal `"1.0"`. -/
def claimC4strength (ik : List (String × Json)) : Json :=
  match alistLookup ik "strength_model" with
  | some v => v
  | none =>
      match alistLookup ik "strength" with
      | some v => v
      | none => .str "1.0"

/-- Negative classification as the claim words it: case-insensitive on
the title hint but literal (case-sensitive) on the identifier string. -/
def claimC5isNegative (node_id titleRaw : String) : Bool :=
  strContainsSub (strLower titleRaw) "negative" || strContainsSub node_id "negative"

theorem strLower_empty : strLower "" = "" := rfl

theorem title_wf (kvs : List (String × Json)) (h : wfMeta kvs = true) :
    ∃ tv, pyGetDefault ((alistLookup kvs "_meta").getD (.obj [])) "title" (.str "") = .ok tv
      ∧ pyLower tv = .ok (titleLowerOf kvs) := by
  unfold wfMeta at h
  split at h
  · rename_i hM
    exact ⟨.str "", by rw [hM]; rfl, by simp [pyLower, titleLowerOf, hM, strLower_empty]⟩
  · rename_i m hM
    split at h
    · rename_i hT
      exact ⟨.str "", by rw [hM]; simp [pyGetDefault, hT],
        by simp [pyLower, titleLowerOf, hM, hT, strLower_empty]⟩
    · rename_i t hT
      exact ⟨.str t, by rw [hM]; simp [pyGetDefault, hT],
        by simp [pyLower, titleLowerOf, hM, hT]⟩
    · simp at h
  · simp at h

theorem promptsDelta_eq (ct : Json) (ik : List (String × Json)) (title node_id : String) :
    promptsDelta ct (.obj ik) title node_id =
      .ok ((if pyEqStr ct "CLIPTextEncode"
               && truthy ((alistLookup ik "text").getD (.str ""))
               && !(strContainsSub title "negative"
                    || strContainsSub (strLower node_id) "negative")
            then [(alistLookup ik "text").getD (.str "")] else []),
           (if pyEqStr ct "CLIPTextEncode"
               && truthy ((alistLookup ik "text").getD (.str ""))
               && (strContainsSub title "negative"
                    || strContainsSub (strLower node_id) "negative")
            then [(alistLookup ik "text").getD (.str "")] else [])) := by
  unfold promptsDelta pyGetDefault
  cases h1 : pyEqStr ct "CLIPTextEncode" <;>
    cases h2 : truthy ((alistLookup ik "text").getD (.str "")) <;>
      cases h3 : strContainsSub title "negative"
          || strContainsSub (strLower node_id) "negative" <;>
        simp [h1, h2, h3]

theorem lorasDelta_eq (ik : List (String × Json)) :
    lorasDelta (.obj ik) =
      .ok (if containsKey ik "lora_name"
           then [pyStr ((alistLookup ik "lora_name").getD .null)
                 ++ " (Weight: " ++ pyStr (strengthOf ik) ++ ")"]
           else []) := by
  unfold lorasDelta pyContains pyGetDefault pySubscript strengthOf
  cases hc : containsKey ik "lora_name"
  · simp [hc]
  · rcases ho : alistLookup ik "lora_name" with _ | nm
    · exact absurd hc (by unfold containsKey; rw [ho]; simp)
    · simp [hc, ho]

theorem modelsDelta_eq (ik : List (String × Json)) :
    modelsDelta (.obj ik) =
      .ok ((if containsKey ik "unet_name" then alistLookup ik "unet_name"
            else if containsKey ik "ckpt_name" then alistLookup ik "ckpt_name"
            else none).toList) := by
  unfold modelsDelta pyContains pySubscript
  cases hu : containsKey ik "unet_name"
  · cases hck : containsKey ik "ckpt_name"
    · simp [hu, hck]
    · rcases ho : alistLookup ik "ckpt_name" with _ | v
      · exact absurd hck (by unfold containsKey; rw [ho]; simp)
      · simp [hu, hck, ho]
  · rcases ho : alistLookup ik "unet_name" with _ | v
    · exact absurd hu (by unfold containsKey; rw [ho]; simp)
    · simp [hu, ho]

theorem processNode_wf (node_id : String) (node : Json) (h : wfNode node = true) :
    processNode node_id node = .ok (deltaOf (node_id, node)) := by
  rcases node with _ | b | n | s | xs | kvs
  · rfl
  · rfl
  · rfl
  · rfl
  · rfl
  · simp only [wfNode, Bool.and_eq_true] at h
    obtain ⟨hm, hi⟩ := h
    obtain ⟨tv, htv, htl⟩ := title_wf kvs hm
    have hik : ∃ ik, (alistLookup kvs "inputs").getD (.obj []) = .obj ik
        ∧ inputsKvsOf kvs = some ik := by
      unfold wfInputs at hi
      unfold inputsKvsOf
      rcases hI : alistLookup kvs "inputs" with _ | v
      · exact ⟨[], rfl, rfl⟩
      · rw [hI] at hi
        rcases v with _ | b | n | s | xs | ik
        · exact absurd hi (by simp)
        · exact absurd hi (by simp)
        · exact absurd hi (by simp)
        · exact absurd hi (by simp)
        · exact absurd hi (by simp)
        · exact ⟨ik, rfl, rfl⟩
    obtain ⟨ik, hIv, hIk⟩ := hik
    simp only [processNode, htv, htl, hIv,
      promptsDelta_eq, lorasDelta_eq, modelsDelta_eq]
    simp only [deltaOf, posOf, negOf, loraOf, modelOf, hIk, isNegativeNode]
    simp [apply_ite Option.toList]

theorem analyzeFold_char (g : List (String × Json)) (acc : AnalysisResult)
    (h : ∀ kv ∈ g, wfNode kv.2 = true) :
    analyzeFold g acc = .ok ⟨acc.positives ++ g.filterMap posOf,
                             acc.negatives ++ g.filterMap negOf,
                             acc.loras ++ g.filterMap loraOf,
                             acc.models ++ g.filterMap modelOf⟩ := by
  induction g generalizing acc with
  | nil => simp [analyzeFold]
  | cons kv rest ih =>
    have hkv : wfNode kv.2 = true := h kv (by simp)
    have hrest : ∀ k ∈ rest, wfNode k.2 = true := fun k hk => h k (by simp [hk])
    rw [analyzeFold, processNode_wf kv.1 kv.2 hkv]
    dsimp only
    rw [ih _ hrest]
    simp only [deltaOf, List.filterMap_cons]
    cases posOf kv <;> cases negOf kv <;> cases loraOf kv <;> cases modelOf kv <;>
      simp

theorem sizeB_obj (kvs : List (String × Json)) : sizeB (.obj kvs) = sizeObjB kvs + 1 := by
  simp [sizeB]

theorem extractGo_obj_no_prompt (fuel : Nat) (kvs : List (String × Json))
    (hp : alistLookup kvs "prompt" = none) :
    extractNodesGo (fuel + 1) (.obj kvs) = some (.obj kvs) := by
  simp [extractNodesGo, hp]

theorem extract_nodes_obj_no_prompt (kvs : List (String × Json))
    (hp : alistLookup kvs "prompt" = none) :
    extract_nodes (.obj kvs) = some (.obj kvs) := by
  unfold extract_nodes
  rw [sizeB_obj]
  exact extractGo_obj_no_prompt (sizeObjB kvs) kvs hp

theorem analyze_obj_char (g : List (String × Json)) (hwf : wfGraph g = true)
    (hp : alistLookup g "prompt" = none) (hne : g ≠ []) :
    analyze_workflow (.obj g) =
      .ok ⟨g.filterMap posOf, g.filterMap negOf,
           g.filterMap loraOf, g.filterMap modelOf⟩ := by
  have hall : ∀ kv ∈ g, wfNode kv.2 = true := by
    intro kv hkv
    exact List.all_eq_true.mp hwf kv hkv
  have ht : truthy (.obj g) = true := by
    rcases g with _ | ⟨kv, rest⟩
    · exact absurd rfl hne
    · simp [truthy]
  unfold analyze_workflow
  rw [extract_nodes_obj_no_prompt g hp]
  simp only [ht, if_true]
  rw [analyzeFold_char g ⟨[], [], [], []⟩ hall]
  simp

theorem charListLt_irrefl (as : List Char) : charListLt as as = false := by
  induction as with
  | nil => rfl
  | cons a as ih => simp [charListLt, ih]

theorem charListLt_trans (as : List Char) : ∀ bs cs,
    charListLt as bs = true → charListLt bs cs = true →
    charListLt as cs = true := by
  induction as with
  | nil =>
    intro bs cs h1 h2
    cases bs with
    | nil => simp [charListLt] at h1
    | cons b bs =>
      cases cs with
      | nil => simp [charListLt] at h2
      | cons c cs => simp [charListLt]
  | cons a as ih =>
    intro bs cs h1 h2
    cases bs with
    | nil => simp [charListLt] at h1
    | cons b bs =>
      cases cs with
      | nil => simp [charListLt] at h2
      | cons c cs =>
        simp only [charListLt] at h1 h2 ⊢
        rcases Nat.lt_trichotomy a.toNat b.toNat with h | h | h
        · rcases Nat.lt_trichotomy b.toNat c.toNat with g | g | g
          · rw [if_pos (by omega)]
          · rw [if_pos (by omega)]
          · rw [if_neg (by omega), if_pos g] at h2
            exact absurd h2 (by simp)
        · rw [if_neg (by omega), if_neg (by omega)] at h1
          rcases Nat.lt_trichotomy b.toNat c.toNat with g | g | g
          · rw [if_pos (by omega)]
          · rw [if_neg (by omega), if_neg (by omega)] at h2
            rw [if_neg (by omega), if_neg (by omega)]
            exact ih bs cs h1 h2
          · rw [if_neg (by omega), if_pos g] at h2
            exact absurd h2 (by simp)
        · rw [if_neg (by omega), if_pos h] at h1
          exact absurd h1 (by simp)

theorem charListLt_connected (as : List Char) : ∀ bs,
    charListLt as bs = false → charListLt bs as = false → as = bs := by
  induction as with
  | nil =>
    intro bs h1 h2
    cases bs with
    | nil => rfl
    | cons b bs => simp [charListLt] at h1
  | cons a as ih =>
    intro bs h1 h2
    cases bs with
    | nil => simp [charListLt] at h2
    | cons b bs =>
      simp only [charListLt] at h1 h2
      rcases Nat.lt_trichotomy a.toNat b.toNat with h | h | h
      · rw [if_pos h] at h1
        exact absurd h1 (by simp)
      · rw [if_neg (by omega), if_neg (by omega)] at h1
        rw [if_neg (by omega), if_neg (by omega)] at h2
        have heq : a = b := by
          have ha : Char.ofNat a.toNat = Char.ofNat b.toNat := by rw [h]
          rwa [Char.ofNat_toNat, Char.ofNat_toNat] at ha
        rw [heq, ih bs h1 h2]
      · rw [if_pos h] at h2
        exact absurd h2 (by simp)

theorem strLt_irrefl (a : String) : strLt a a = false :=
  charListLt_irrefl a.data

theorem strLt_trans {a b c : String} (h1 : strLt a b = true)
    (h2 : strLt b c = true) : strLt a c = true :=
  charListLt_trans a.data b.data c.data h1 h2

theorem strLt_connected {a b : String} (h1 : strLt a b = false)
    (h2 : strLt b a = false) : a = b := by
  rcases a with ⟨as⟩
  rcases b with ⟨bs⟩
  exact congrArg String.mk (charListLt_connected as bs h1 h2)

theorem strLt_ne {a b : String} (h : strLt a b = true) : a ≠ b := by
  intro heq
  rw [heq, strLt_irrefl] at h
  exact absurd h (by simp)

theorem insertSorted_mem (x a : String) (l : List String) :
    a ∈ insertSorted x l ↔ a = x ∨ a ∈ l := by
  induction l with
  | nil => simp [insertSorted]
  | cons y ys ih =>
    unfold insertSorted
    split
    · simp [List.mem_cons]
      try tauto
    · split
      · rename_i h1 h2
        have h2e : x = y := by simpa using h2
        subst h2e
        simp [List.mem_cons]
        try tauto
      · simp [List.mem_cons, ih]
        try tauto

theorem insertSorted_sorted (x : String) (l : List String)
    (h : l.Sorted (fun a b => strLt a b = true)) :
    (insertSorted x l).Sorted (fun a b => strLt a b = true) := by
  induction l with
  | nil => simp [insertSorted]
  | cons y ys ih =>
    rcases List.sorted_cons.mp h with ⟨hy, hys⟩
    unfold insertSorted
    split
    · rename_i hxy
      refine List.sorted_cons.mpr ⟨?_, h⟩
      intro b hb
      rcases List.mem_cons.mp hb with rfl | hb
      · exact hxy
      · exact strLt_trans hxy (hy b hb)
    · split
      · exact h
      · rename_i hnlt hne
        have hyx : strLt y x = true := by
          rcases hlt : strLt y x with _ | _
          · have hne2 : x ≠ y := by simpa using hne
            have hnlt2 : strLt x y = false := by simpa using hnlt
            exact absurd (strLt_connected hnlt2 hlt) hne2
          · rfl
        refine List.sorted_cons.mpr ⟨?_, ih hys⟩
        intro b hb
        rcases (insertSorted_mem x b ys).mp hb with rfl | hb
        · exact hyx
        · exact hy b hb

theorem sortDedup_sorted (l : List String) :
    (sortDedup l).Sorted (fun a b => strLt a b = true) := by
  induction l with
  | nil => simp [sortDedup]
  | cons x xs ih => exact insertSorted_sorted x _ ih

theorem sortDedup_mem (a : String) (l : List String) :
    a ∈ sortDedup l ↔ a ∈ l := by
  induction l with
  | nil => simp [sortDedup]
  | cons x xs ih => simp [sortDedup, insertSorted_mem, ih]

theorem sortDedup_nodup (l : List String) : (sortDedup l).Nodup :=
  List.Pairwise.imp (fun h => strLt_ne h) (sortDedup_sorted l)

theorem sizeB_promptWrap (k : Nat) (v : Json) :
    sizeB (promptWrap k v) = k + sizeB v := by
  induction k with
  | zero => simp [promptWrap]
  | succ k ih =>
    simp [promptWrap, sizeB_obj, sizeObjB, ih]
    omega

theorem extractGo_promptWrap (k : Nat) (m : List (String × Json)) :
    ∀ fuel, k + 1 ≤ fuel → alistLookup m "prompt" = none →
    extractNodesGo fuel (promptWrap k (.obj m)) = some (.obj m) := by
  induction k with
  | zero =>
    intro fuel hf hp
    obtain ⟨f2, rfl⟩ : ∃ f2, fuel = f2 + 1 := ⟨fuel - 1, by omega⟩
    simpa [promptWrap] using extractGo_obj_no_prompt f2 m hp
  | succ k ih =>
    intro fuel hf hp
    obtain ⟨f2, rfl⟩ : ∃ f2, fuel = f2 + 1 := ⟨fuel - 1, by omega⟩
    have hstep : extractNodesGo (f2 + 1) (promptWrap (k + 1) (.obj m))
        = extractNodesGo f2 (promptWrap k (.obj m)) := by
      simp [promptWrap, extractNodesGo, alistLookup]
    rw [hstep]
    exact ih f2 (by omega) hp

theorem extractGo_none_or_obj (fuel : Nat) :
    ∀ v, extractNodesGo fuel v = none
      ∨ ∃ kvs, extractNodesGo fuel v = some (.obj kvs) := by
  induction fuel with
  | zero => intro v; exact Or.inl rfl
  | succ fuel ih =>
    intro v
    rcases v with _ | b | n | s | xs | kvs
    · exact Or.inl rfl
    · exact Or.inl rfl
    · exact Or.inl rfl
    · rcases hps : parseJson s with _ | v2
      · rcases hu : unicodeUnescape s with _ | u
        · exact Or.inl (by simp [extractNodesGo, hps, hu])
        · rcases hp2 : parseJson (stripQuotes u) with _ | v3
          · exact Or.inl (by simp [extractNodesGo, hps, hu, hp2])
          · rcases ih v3 with h | ⟨kvs2, h⟩
            · exact Or.inl (by simp [extractNodesGo, hps, hu, hp2, h])
            · exact Or.inr ⟨kvs2, by simp [extractNodesGo, hps, hu, hp2, h]⟩
      · rcases ih v2 with h | ⟨kvs2, h⟩
        · exact Or.inl (by simp [extractNodesGo, hps, h])
        · exact Or.inr ⟨kvs2, by simp [extractNodesGo, hps, h]⟩
    · exact Or.inl rfl
    · rcases hp : alistLookup kvs "prompt" with _ | v2
      · exact Or.inr ⟨kvs, by simp [extractNodesGo, hp]⟩
      · rcases ih v2 with h | ⟨kvs2, h⟩
        · exact Or.inl (by simp [extractNodesGo, hp, h])
        · exact Or.inr ⟨kvs2, by simp [extractNodesGo, hp, h]⟩

theorem extract_str_parse_ok (s : String) (m : List (String × Json))
    (hparse : parseJson s = some (.obj m)) (hp : alistLookup m "prompt" = none) :
    extract_nodes (.str s) = some (.obj m) := by
  unfold extract_nodes
  have hs : sizeB (.str s) = s.length + 2 := by simp [sizeB]
  rw [hs]
  have hstep : extractNodesGo (s.length + 2) (.str s)
      = extractNodesGo (s.length + 1) (.obj m) := by
    simp [extractNodesGo, hparse]
  rw [hstep]
  exact extractGo_obj_no_prompt s.length m hp

theorem extract_str_fallback (raw u : String) (m : List (String × Json))
    (hfail : parseJson raw = none)
    (hun : unicodeUnescape raw = some u)
    (hparse : parseJson (stripQuotes u) = some (.obj m))
    (hp : alistLookup m "prompt" = none) :
    extract_nodes (.str raw) = some (.obj m) := by
  unfold extract_nodes
  have hs : sizeB (.str raw) = raw.length + 2 := by simp [sizeB]
  rw [hs]
  have hstep : extractNodesGo (raw.length + 2) (.str raw)
      = extractNodesGo (raw.length + 1) (.obj m) := by
    simp [extractNodesGo, hfail, hun, hparse]
  rw [hstep]
  exact extractGo_obj_no_prompt raw.length m hp

theorem analyze_singleton (id : String) (node : Json) (hid : (id == "prompt") = false) :
    analyze_workflow (.obj [(id, node)]) =
      match processNode id node with
      | .error e => .error e
      | .ok d => .ok ⟨d.positives, d.negatives, d.loras, d.models⟩ := by
  unfold analyze_workflow
  have hex : extract_nodes (.obj [(id, node)]) = some (.obj [(id, node)]) := by
    apply extract_nodes_obj_no_prompt
    simp [alistLookup, hid]
  rw [hex]
  rcases hpn : processNode id node with e | d
  · simp [truthy, analyzeFold, hpn]
  · simp [truthy, analyzeFold, hpn]

/-- C1: for every string whose JSON parse yields a mapping object that is
a direct node mapping (it carries no `prompt` wrapper key), `extract_nodes`
returns a mapping equal to the parsed JSON object, unchanged. -/
theorem C1_recover_direct_json_identity (s : String) (m : List (String × Json))
    (hparse : parseJson s = some (.obj m)) (hp : alistLookup m "prompt" = none) :
    extract_nodes (.str s) = some (.obj m) :=
  extract_str_parse_ok s m hparse hp

theorem C1_recover_direct_json_identity_witness :
    parseJson "\x7b\"a\": 1\x7d" = some (.obj [("a", Json.num 1)])
    ∧ extract_nodes (.str "\x7b\"a\": 1\x7d") = some (.obj [("a", Json.num 1)]) :=
  ⟨rfl, C1_recover_direct_json_identity "\x7b\"a\": 1\x7d" [("a", Json.num 1)] rfl rfl⟩

/-- C2: a node mapping wrapped any positive number of levels deep under a
`prompt` key (the innermost mapping itself containing no `prompt` key) is
recovered as that same innermost mapping, regardless of the wrap depth. -/
theorem C2_recover_unwraps_any_depth (k : Nat) (m : List (String × Json))
    (hp : alistLookup m "prompt" = none) :
    extract_nodes (promptWrap (k + 1) (.obj m)) = some (.obj m) := by
  unfold extract_nodes
  apply extractGo_promptWrap (k + 1) m _ _ hp
  rw [sizeB_promptWrap, sizeB_obj]
  omega

theorem C2_recover_unwraps_any_depth_witness :
    extract_nodes (promptWrap 3 (.obj [("5", Json.obj [])]))
      = some (.obj [("5", Json.obj [])]) :=
  C2_recover_unwraps_any_depth 2 [("5", Json.obj [])] rfl

/-- C3 counterexample: on the input consisting of `\x7b\x7d` surrounded by
four quote characters on each side, the initial parse fails and the code
strips ALL surrounding quotes, recovering the empty mapping, while the
claimed algorithm (strip exactly one layer of surrounding quotes, then
retry the parse) fails.  So `extract_nodes` does not strip exactly one
layer. -/
theorem C3_one_layer_strip_counterexample :
    extract_nodes (.str "\"\"\"\"\x7b\x7d\"\"\"\"") = some (.obj [])
    ∧ recoverOneLayer (.str "\"\"\"\"\x7b\x7d\"\"\"\"") = none :=
  ⟨rfl, rfl⟩

/-- C3 amended: when parsing the raw string as JSON fails, `extract_nodes`
unescapes backslash-escaped sequences and strips ALL surrounding quote
characters (not exactly one layer) before retrying the parse; for a
double-escaped JSON node mapping this recovers the same mapping as parsing
the unescaped form directly. -/
theorem C3_unescape_strip_all_retry (raw u : String) (m : List (String × Json))
    (hfail : parseJson raw = none)
    (hun : unicodeUnescape raw = some u)
    (hstr : stripQuotes u = u)
    (hparse : parseJson u = some (.obj m))
    (hp : alistLookup m "prompt" = none) :
    extract_nodes (.str raw) = some (.obj m)
    ∧ extract_nodes (.str u) = some (.obj m) :=
  ⟨extract_str_fallback raw u m hfail hun (by rw [hstr]; exact hparse) hp,
   extract_str_parse_ok u m hparse hp⟩

theorem C3_unescape_strip_all_retry_witness :
    parseJson "\x7b\\\"5\\\": \x7b\x7d\x7d" = none
    ∧ extract_nodes (.str "\x7b\\\"5\\\": \x7b\x7d\x7d")
        = some (.obj [("5", Json.obj [])])
    ∧ extract_nodes (.str "\x7b\"5\": \x7b\x7d\x7d")
        = some (.obj [("5", Json.obj [])]) := by
  refine ⟨rfl, ?_, ?_⟩
  · exact (C3_unescape_strip_all_retry "\x7b\\\"5\\\": \x7b\x7d\x7d"
      "\x7b\"5\": \x7b\x7d\x7d" [("5", Json.obj [])] rfl rfl rfl rfl rfl).1
  · exact (C3_unescape_strip_all_retry "\x7b\\\"5\\\": \x7b\x7d\x7d"
      "\x7b\"5\": \x7b\x7d\x7d" [("5", Json.obj [])] rfl rfl rfl rfl rfl).2

/-- C4 counterexample: a node whose `inputs` carries
`strength_model = 0` and `strength = 2` emits `x (Weight: 2)` — the
truthiness chain skips the present-but-falsy `strength_model` — while the
claimed presence-based resolution (`claimC4strength`) would pick `0` and
predict `x (Weight: 0)`. -/
theorem C4_strength_presence_counterexample :
    analyze_workflow (Json.obj [("1", Json.obj [("inputs", Json.obj
      [("lora_name", Json.str "x"), ("strength_model", Json.num 0),
       ("strength", Json.num 2)])])])
      = .ok ⟨[], [], ["x (Weight: 2)"], []⟩
    ∧ pyStr (claimC4strength
        [("lora_name", Json.str "x"), ("strength_model", Json.num 0),
         ("strength", Json.num 2)]) = "0"
    ∧ ("x (Weight: 2)" : String) ≠ "x (Weight: 0)" :=
  ⟨rfl, rfl, by decide⟩

/-- C4 amended: for every wellformed node whose `inputs` contains a
`lora_name` key, the analyzer emits exactly one formatted entry combining
the name with a strength, where the strength is the first TRUTHY value
among `strength_model` and `strength` (a present but falsy value, such as
`0`, is skipped), and the literal `"1.0"` when neither is truthy
(`loraOf`/`strengthOf` spell this resolution). -/
theorem C4_lora_entry_truthy_strength (g : List (String × Json))
    (hwf : wfGraph g = true) (hp : alistLookup g "prompt" = none)
    (hne : g ≠ []) (r : AnalysisResult)
    (hr : analyze_workflow (.obj g) = .ok r) :
    r.loras = g.filterMap loraOf := by
  rw [analyze_obj_char g hwf hp hne] at hr
  injection hr with h
  subst h
  rfl

theorem C4_lora_entry_truthy_strength_witness :
    (⟨[], [], ["detail.safetensors (Weight: 1.0)"], []⟩ : AnalysisResult).loras
      = List.filterMap loraOf
          [("1", Json.obj [("inputs", Json.obj
            [("lora_name", Json.str "detail.safetensors")])])] :=
  C4_lora_entry_truthy_strength
    [("1", Json.obj [("inputs", Json.obj
      [("lora_name", Json.str "detail.safetensors")])])]
    rfl rfl (by simp) ⟨[], [], ["detail.safetensors (Weight: 1.0)"], []⟩ rfl

/-- C5 counterexample: the node id `Negative7` does not contain the
substring `negative` literally (`claimC5isNegative` is false with an
empty title), yet the analyzer classifies the prompt as negative because
it lowercases the identifier before the substring test.  So the
identifier comparison is case-insensitive, not literal. -/
theorem C5_id_case_sensitivity_counterexample :
    claimC5isNegative "Negative7" "" = false
    ∧ analyze_workflow (Json.obj [("Negative7", Json.obj
        [("class_type", Json.str "CLIPTextEncode"),
         ("inputs", Json.obj [("text", Json.str "x")])])])
      = .ok ⟨[], [Json.str "x"], [], []⟩ :=
  ⟨rfl, rfl⟩

/-- C5 amended: for every wellformed graph, a `CLIPTextEncode` node with
truthy `text` is classified negative exactly when the lowered title hint
or the LOWERED identifier contains `negative` (both comparisons are
case-insensitive — `posOf`/`negOf`/`isNegativeNode` spell the rule), and
positive otherwise; nodes with falsy (in particular empty or absent)
`text` contribute to neither list. -/
theorem C5_clip_text_classification (g : List (String × Json))
    (hwf : wfGraph g = true) (hp : alistLookup g "prompt" = none)
    (hne : g ≠ []) (r : AnalysisResult)
    (hr : analyze_workflow (.obj g) = .ok r) :
    r.positives = g.filterMap posOf ∧ r.negatives = g.filterMap negOf := by
  rw [analyze_obj_char g hwf hp hne] at hr
  injection hr with h
  subst h
  exact ⟨rfl, rfl⟩

theorem C5_clip_text_classification_witness :
    (⟨[], [Json.str "blurry"], [], []⟩ : AnalysisResult).positives
      = List.filterMap posOf
          [("3", Json.obj [("class_type", Json.str "CLIPTextEncode"),
            ("inputs", Json.obj [("text", Json.str "blurry")]),
            ("_meta", Json.obj [("title", Json.str "Negative Prompt")])])]
    ∧ (⟨[], [Json.str "blurry"], [], []⟩ : AnalysisResult).negatives
      = List.filterMap negOf
          [("3", Json.obj [("class_type", Json.str "CLIPTextEncode"),
            ("inputs", Json.obj [("text", Json.str "blurry")]),
            ("_meta", Json.obj [("title", Json.str "Negative Prompt")])])] :=
  C5_clip_text_classification
    [("3", Json.obj [("class_type", Json.str "CLIPTextEncode"),
      ("inputs", Json.obj [("text", Json.str "blurry")]),
      ("_meta", Json.obj [("title", Json.str "Negative Prompt")])])]
    rfl rfl (by simp) ⟨[], [Json.str "blurry"], [], []⟩ rfl

/-- C6: for every wellformed graph, each node contributes at most one
model reference: the `unet_name` value when that key is present, else the
`ckpt_name` value when that key is present, else nothing (`modelOf`
spells the priority). -/
theorem C6_model_reference_priority (g : List (String × Json))
    (hwf : wfGraph g = true) (hp : alistLookup g "prompt" = none)
    (hne : g ≠ []) (r : AnalysisResult)
    (hr : analyze_workflow (.obj g) = .ok r) :
    r.models = g.filterMap modelOf := by
  rw [analyze_obj_char g hwf hp hne] at hr
  injection hr with h
  subst h
  rfl

theorem C6_model_reference_priority_witness :
    (⟨[], [], [], [Json.str "u", Json.str "c2"]⟩ : AnalysisResult).models
      = List.filterMap modelOf
          [("1", Json.obj [("inputs", Json.obj
             [("unet_name", Json.str "u"), ("ckpt_name", Json.str "c")])]),
           ("2", Json.obj [("inputs", Json.obj
             [("ckpt_name", Json.str "c2")])])] :=
  C6_model_reference_priority
    [("1", Json.obj [("inputs", Json.obj
       [("unet_name", Json.str "u"), ("ckpt_name", Json.str "c")])]),
     ("2", Json.obj [("inputs", Json.obj
       [("ckpt_name", Json.str "c2")])])]
    rfl rfl (by simp) ⟨[], [], [], [Json.str "u", Json.str "c2"]⟩ rfl

/-- C7: the analyzer raises `ValueError` whenever recovery fails or
yields an empty mapping; in particular, applied directly to an empty
mapping it fails rather than returning four empty lists. -/
theorem C7_analyze_fails_on_empty_or_unrecovered :
    (∀ v, (extract_nodes v = none ∨ extract_nodes v = some (.obj [])) →
      analyze_workflow v = .error PyErr.valueError)
    ∧ analyze_workflow (.obj []) = .error PyErr.valueError := by
  constructor
  · intro v h
    unfold analyze_workflow
    rcases h with h | h
    · rw [h]
    · rw [h]; rfl
  · rfl

theorem C7_analyze_fails_on_empty_or_unrecovered_witness :
    analyze_workflow Json.null = .error PyErr.valueError :=
  C7_analyze_fails_on_empty_or_unrecovered.1 Json.null (Or.inl rfl)

/-- C8: at presentation time the lora and model sequences are
deduplicated and sorted in strictly increasing lexicographic order while
keeping exactly the accumulated elements, and the positive/negative
sequences are passed through unchanged in node-encounter order; two nodes
carrying the same `unet_name` yield that model exactly once in the
printed output. -/
theorem C8_presentation_dedup_sort :
    (∀ rs : AnalysisResult,
      (printedLoras rs).Sorted (fun a b => strLt a b = true)
        ∧ (printedLoras rs).Nodup
        ∧ (∀ a, a ∈ printedLoras rs ↔ a ∈ rs.loras)
        ∧ printedPositives rs = rs.positives
        ∧ printedNegatives rs = rs.negatives)
    ∧ (∀ (rs : AnalysisResult) (ss : List String),
        allStringsOf rs.models = some ss →
        printedModels rs = some (sortDedup ss)
          ∧ (sortDedup ss).Sorted (fun a b => strLt a b = true)
          ∧ (sortDedup ss).Nodup
          ∧ (∀ a, a ∈ sortDedup ss ↔ a ∈ ss))
    ∧ analyze_workflow (Json.obj
        [("1", Json.obj [("inputs", Json.obj [("unet_name", Json.str "fluxA.gguf")])]),
         ("2", Json.obj [("inputs", Json.obj [("unet_name", Json.str "fluxA.gguf")])])])
        = .ok ⟨[], [], [], [Json.str "fluxA.gguf", Json.str "fluxA.gguf"]⟩
    ∧ printedModels ⟨[], [], [], [Json.str "fluxA.gguf", Json.str "fluxA.gguf"]⟩
        = some ["fluxA.gguf"]
    ∧ printedPositives ⟨[Json.str "a", Json.str "b", Json.str "a"], [], [], []⟩
        = [Json.str "a", Json.str "b", Json.str "a"] := by
  refine ⟨?_, ?_, rfl, rfl, rfl⟩
  · intro rs
    exact ⟨sortDedup_sorted rs.loras, sortDedup_nodup rs.loras,
      fun a => sortDedup_mem a rs.loras, rfl, rfl⟩
  · intro rs ss hs
    refine ⟨?_, sortDedup_sorted ss, sortDedup_nodup ss, fun a => sortDedup_mem a ss⟩
    unfold printedModels
    rw [hs]
    rfl

theorem C8_presentation_dedup_sort_witness :
    printedModels ⟨[], [], [], [Json.str "b", Json.str "a", Json.str "b"]⟩
      = some (sortDedup ["b", "a", "b"]) :=
  (C8_presentation_dedup_sort.2.1
    ⟨[], [], [], [Json.str "b", Json.str "a", Json.str "b"]⟩
    ["b", "a", "b"] rfl).1

/-- C9: the recovery function is total on every JSON/Python value and
always yields either a failure (`none`) or a mapping — never a scalar,
array or other value, and (in the model, where every fallible stdlib step
is `Option`-valued) no error escapes. -/
theorem C9_extract_nodes_total_none_or_mapping :
    ∀ v, extract_nodes v = none ∨ ∃ kvs, extract_nodes v = some (.obj kvs) :=
  fun v => extractGo_none_or_obj (sizeB v) v

/-- C10 counterexample: a graph entry that is a mapping whose `inputs`
field is present with a non-mapping value (an empty list) is processed
without any exception: the membership probes succeed on the list, find
nothing, and the run returns four empty lists instead of failing. -/
theorem C10_non_mapping_inputs_tolerated_counterexample :
    alistLookup [("inputs", Json.arr [])] "inputs" = some (Json.arr [])
    ∧ jsonIsObj (Json.arr []) = false
    ∧ analyze_workflow (Json.obj [("1", Json.obj [("inputs", Json.arr [])])])
        = .ok ⟨[], [], [], []⟩ :=
  ⟨rfl, rfl, rfl⟩

/-- C10 amended: a `_meta` field present with a non-mapping value, or a
`_meta.title` present with a non-string value, always raises
(`AttributeError`) and fails the run; a non-mapping `inputs` raises only
when it is actually used as a mapping (for example when `class_type` is
`CLIPTextEncode`, forcing `inputs.get`), and is otherwise tolerated
silently — the node then contributes nothing and the run succeeds. -/
theorem C10_meta_errors_propagate :
    (∀ (id : String) (kvs : List (String × Json)) (mv : Json),
       (id == "prompt") = false →
       alistLookup kvs "_meta" = some mv → jsonIsObj mv = false →
       analyze_workflow (.obj [(id, .obj kvs)]) = .error PyErr.attrError)
    ∧ (∀ (id : String) (kvs mkvs : List (String × Json)) (tv : Json),
       (id == "prompt") = false →
       alistLookup kvs "_meta" = some (.obj mkvs) →
       alistLookup mkvs "title" = some tv → jsonIsStr tv = false →
       analyze_workflow (.obj [(id, .obj kvs)]) = .error PyErr.attrError)
    ∧ (∀ (id : String) (kvs : List (String × Json)) (iv : Json),
       (id == "prompt") = false →
       alistLookup kvs "_meta" = none →
       (alistLookup kvs "class_type").getD (.str "") = .str "CLIPTextEncode" →
       alistLookup kvs "inputs" = some iv → jsonIsObj iv = false →
       analyze_workflow (.obj [(id, .obj kvs)]) = .error PyErr.attrError)
    ∧ (∀ id : String, (id == "prompt") = false →
       analyze_workflow (.obj [(id, .obj [("inputs", Json.arr [])])])
         = .ok ⟨[], [], [], []⟩) := by
  refine ⟨?_, ?_, ?_, ?_⟩
  · intro id kvs mv hid hm hmo
    rw [analyze_singleton id _ hid]
    have hpn : processNode id (.obj kvs) = .error PyErr.attrError := by
      unfold processNode
      dsimp only
      rw [hm]
      rcases mv with _ | b | n | s | xs | m
      · rfl
      · rfl
      · rfl
      · rfl
      · rfl
      · simp [jsonIsObj] at hmo
    rw [hpn]
  · intro id kvs mkvs tv hid hm ht htv
    rw [analyze_singleton id _ hid]
    have hpn : processNode id (.obj kvs) = .error PyErr.attrError := by
      unfold processNode
      dsimp only
      rw [hm]
      simp only [Option.getD_some]
      rw [show pyGetDefault (.obj mkvs) "title" (.str "")
            = .ok ((alistLookup mkvs "title").getD (.str "")) from rfl, ht]
      rcases tv with _ | b | n | s | xs | m
      · rfl
      · rfl
      · rfl
      · simp [jsonIsStr] at htv
      · rfl
      · rfl
    rw [hpn]
  · intro id kvs iv hid hm hct hin hio
    rw [analyze_singleton id _ hid]
    have hpn : processNode id (.obj kvs) = .error PyErr.attrError := by
      unfold processNode
      dsimp only
      rw [hm, hin]
      simp only [Option.getD_none, Option.getD_some]
      rw [hct]
      have hpd : promptsDelta (.str "CLIPTextEncode") iv (strLower "") id
          = .error PyErr.attrError := by
        unfold promptsDelta
        rw [if_pos (by rfl)]
        rcases iv with _ | b | n | s | xs | m
        · rfl
        · rfl
        · rfl
        · rfl
        · rfl
        · simp [jsonIsObj] at hio
      simp [pyGetDefault, pyLower, alistLookup, hpd]
    rw [hpn]
  · intro id hid
    rw [analyze_singleton id _ hid]
    rfl

theorem C10_meta_errors_propagate_witness :
    analyze_workflow (.obj [("1", .obj [("_meta", Json.num 0)])])
      = .error PyErr.attrError :=
  C10_meta_errors_propagate.1 "1" [("_meta", Json.num 0)] (Json.num 0) rfl rfl rfl
